import Mathlib

/-!
# Verification of the story-timeline-plugin line-classification core

Shallow embedding of `src/extension.ts` (the latest variant, with the
State Tree): the three line grammars (`ATTR_REGEX`, `NOTE_MATCHER`,
`STATE_MATCHER`), the three stores (attributes, notes, state tree), the
per-line dispatcher `handleLines`, and the cursor-move recompute driver.

Modelling conventions:
* JavaScript objects are insertion-ordered string-keyed dictionaries with
  unique keys; they are embedded as association lists (`setAssoc` keeps the
  position of an existing key and appends a new key at the end, `delAssoc`
  removes the key, exactly like property assignment and `delete`).
* The regexes are embedded as deterministic recursive matchers that
  reproduce the backtracking engine's leftmost/lazy/greedy priority for
  these particular patterns.  Input lines come from `split('\n')` and so
  contain no newline; `.` never matches `'\n'`, which the matchers respect.
* `\s` and `String.prototype.trim` are modelled on the ASCII whitespace
  characters (space, tab, CR, LF, vertical tab, form feed); the exotic
  Unicode space classes never occur in the inputs considered here.
* `Number` applied to a string matched by `-?\d+` is modelled as the exact
  integer (faithful below 2^53, and all claims use small literals).
-/

/-- ASCII whitespace, the fragment of JavaScript `\s` relevant here. -/
def isWs (c : Char) : Bool :=
  c = ' ' || c = '\t' || c = '\r' || c = '\n' || c = '\x0b' || c = '\x0c'

/-- Consume a maximal run of whitespace (a deterministic `\s*` just before a
non-whitespace literal). -/
def skipWs (l : List Char) : List Char := l.dropWhile isWs

/-- JavaScript `String.prototype.trim` on the character list. -/
def jsTrim (l : List Char) : List Char :=
  ((l.dropWhile isWs).reverse.dropWhile isWs).reverse

/-- Worker for `jsSplitWs`: `some cur` means a piece (reversed) is being
collected, `none` means the scan is inside a separator run. -/
def splitWsGo : List Char → Option (List Char) → List (List Char)
  | [], some cur => [cur.reverse]
  | [], none => [[]]
  | c :: rest, some cur =>
    if isWs c then cur.reverse :: splitWsGo rest none
    else splitWsGo rest (some (c :: cur))
  | c :: rest, none =>
    if isWs c then splitWsGo rest none
    else splitWsGo rest (some [c])

/-- JavaScript `s.split(/\s+/)`: pieces between maximal whitespace runs,
with an empty piece for a leading or trailing run, and `[""]` on `""`. -/
def jsSplitWs (l : List Char) : List (List Char) := splitWsGo l (some [])

/-- Value of a digit character. -/
def digitVal (c : Char) : Nat := c.toNat - '0'.toNat

/-- JavaScript `Number` on a string of the shape `-?\d+`. -/
def jsNumber (l : List Char) : Int :=
  match l with
  | '-' :: ds => - (ds.foldl (fun n c => 10 * n + digitVal c) 0 : Int)
  | ds => (ds.foldl (fun n c => 10 * n + digitVal c) 0 : Int)

/-!
## The three regular expressions

`ATTR_REGEX  = /^[+*-]\s*\[(?<char>.*?)\]\s*(?<attr>.*?)\s*:\s*[+]?(?<value>-?\d+)\s*$/`
`NOTE_MATCHER = /^[+-]\s*\[(?<char>.*?)\]\s*(?<note>.+)\s*$/`
`STATE_MATCHER = /^[>]\s*(?<path>.*?)\s*:\s*(?<value>.+)\s*$/`

Each is embedded as a total function returning the captured groups.  The
lazy groups (`.*?`) are realised by trying the shortest extension first and
growing one character at a time; the greedy `\s*` before a non-whitespace
literal and the greedy `\d+`/`.+` runs are deterministic maximal runs.
-/

/-- The tail `\s*[+]?(?<value>-?\d+)\s*$`: returns the `value` capture. -/
def numTail (l : List Char) : Option (List Char) :=
  let l1 := skipWs l
  let l2 := match l1 with
            | '+' :: r => r
            | _ => l1
  let (sign, l3) := match l2 with
                    | '-' :: r => (['-'], r)
                    | _ => (([] : List Char), l2)
  let digits := l3.takeWhile Char.isDigit
  let rest := l3.dropWhile Char.isDigit
  if digits = [] then none
  else if rest.all isWs then some (sign ++ digits) else none

/-- `\s*:` followed by the numeric tail of `ATTR_REGEX`. -/
def attrColonNum (l : List Char) : Option (List Char) :=
  match skipWs l with
  | ':' :: rest => numTail rest
  | _ => none

/-- Lazy search for the `attr` capture of `ATTR_REGEX`: try to finish the
match at the current position, else absorb one more character into `attr`.
Returns `(attr, value)` captures. -/
def findAttr : List Char → List Char → Option (List Char × List Char)
  | acc, l =>
    match attrColonNum l with
    | some v => some (acc.reverse, v)
    | none =>
      match l with
      | [] => none
      | c :: rest => if c = '\n' then none else findAttr (c :: acc) rest

/-- Lazy search for the closing `]` of the `char` group of `ATTR_REGEX`:
at each `]`, try the rest of the pattern; on failure the `]` is absorbed
into the `char` group.  Returns `(char, attr, value)` captures. -/
def findChar : List Char → List Char → Option (List Char × List Char × List Char)
  | _, [] => none
  | acc, c :: rest =>
    if c = ']' then
      match findAttr [] (skipWs rest) with
      | some (a, v) => some (acc.reverse, a, v)
      | none => findChar (c :: acc) rest
    else if c = '\n' then none
    else findChar (c :: acc) rest

/-- `line.match(ATTR_REGEX)`: the captures `(char, attr, value)`. -/
def attrRegexMatch (l : List Char) : Option (List Char × List Char × List Char) :=
  match l with
  | c :: rest =>
    if c = '+' || c = '*' || c = '-' then
      match skipWs rest with
      | '[' :: r2 => findChar [] r2
      | _ => none
    else none
  | [] => none

/-- The tail `\s*(?<g>.+)\s*$` (no newline in `l`): the greedy `\s*` backs
off just enough to leave the mandatory character for `.+`, which then
swallows the whole remainder.  Returns the `g` capture. -/
def restValue (l : List Char) : Option (List Char) :=
  match l with
  | [] => none
  | _ =>
    let ws := (l.takeWhile isWs).length
    some (l.drop (min ws (l.length - 1)))

/-- Lazy search for the closing `]` of the `char` group of `NOTE_MATCHER`. -/
def findNoteChar : List Char → List Char → Option (List Char × List Char)
  | _, [] => none
  | acc, c :: rest =>
    if c = ']' then
      match restValue rest with
      | some n => some (acc.reverse, n)
      | none => findNoteChar (c :: acc) rest
    else if c = '\n' then none
    else findNoteChar (c :: acc) rest

/-- `line.match(NOTE_MATCHER)`: the captures `(char, note)`. -/
def noteMatcherMatch (l : List Char) : Option (List Char × List Char) :=
  match l with
  | c :: rest =>
    if c = '+' || c = '-' then
      match skipWs rest with
      | '[' :: r2 => findNoteChar [] r2
      | _ => none
    else none
  | [] => none

/-- `\s*:` followed by the value tail of `STATE_MATCHER`. -/
def stateColonValue (l : List Char) : Option (List Char) :=
  match skipWs l with
  | ':' :: rest => restValue rest
  | _ => none

/-- Lazy search for the end of the `path` capture of `STATE_MATCHER`. -/
def findStatePath : List Char → List Char → Option (List Char × List Char)
  | acc, l =>
    match stateColonValue l with
    | some v => some (acc.reverse, v)
    | none =>
      match l with
      | [] => none
      | c :: rest => if c = '\n' then none else findStatePath (c :: acc) rest

/-- `line.match(STATE_MATCHER)`: the captures `(path, value)`. -/
def stateMatcherMatch (l : List Char) : Option (List Char × List Char) :=
  match l with
  | '>' :: rest => findStatePath [] (skipWs rest)
  | _ => none

/-!
## JavaScript object dictionaries as association lists
-/

/-- Property read `d[k]` (`undefined` becomes `none`). -/
def getAssoc {α : Type} (k : String) : List (String × α) → Option α
  | [] => none
  | (k', v) :: rest => if k' = k then some v else getAssoc k rest

/-- Property write `d[k] = v`: replaces in place, or appends a new key. -/
def setAssoc {α : Type} (k : String) (v : α) : List (String × α) → List (String × α)
  | [] => [(k, v)]
  | (k', v') :: rest =>
    if k' = k then (k, v) :: rest else (k', v') :: setAssoc k v rest

/-- Property deletion `delete d[k]`. -/
def delAssoc {α : Type} (k : String) (l : List (String × α)) : List (String × α) :=
  l.filter (fun p => p.1 ≠ k)

/-!
## The three stores
-/

/-- One entity's attribute mapping (`{ [attr: string]: number }`). -/
abbrev AttrMap := List (String × Int)

/-- The `AttributesProvider.attr` field. -/
abbrev AttrTable := List (String × AttrMap)

/-- The `NotesProvider.notes` field. -/
abbrev NoteTable := List (String × List String)

/-- A node of the `StateDict`: a scalar string or a nested dictionary. -/
inductive SNode where
  | str : String → SNode
  | dict : List (String × SNode) → SNode

/-- The `StateProvider.state` field (the root dictionary). -/
abbrev StateRoot := List (String × SNode)

/-- Core of `numberAdd` after the regex matched and the captures were
trimmed: lazily create the nested entry, accumulate the delta.  A stored
`0` is falsy in JavaScript, so the guard `if (!attr[c][a])` re-initialises
it to `0`, which `getD 0` reproduces. -/
def attrAddCore (c a : String) (v : Int) (t : AttrTable) : AttrTable :=
  let m := (getAssoc c t).getD []
  setAssoc c (setAssoc a ((getAssoc a m).getD 0 + v) m) t

/-- Core of `numberRemove`: subtract, then delete the attribute key when
the total is exactly zero, and the entity key when its map became empty. -/
def attrRemoveCore (c a : String) (v : Int) (t : AttrTable) : AttrTable :=
  let m := (getAssoc c t).getD []
  let nv := (getAssoc a m).getD 0 - v
  if nv = 0 then
    let m' := delAssoc a m
    if m' = [] then delAssoc c t else setAssoc c m' t
  else
    setAssoc c (setAssoc a nv m) t

/-- Core of `textAdd`: push the note onto the entity's list. -/
def noteAddCore (c note : String) (t : NoteTable) : NoteTable :=
  setAssoc c ((getAssoc c t).getD [] ++ [note]) t

/-- Core of `textRemove`: absent entity is a silent success; else push the
note, filter out every occurrence equal to it, and delete the entity key if
the list became empty. -/
def noteRemoveCore (c note : String) (t : NoteTable) : NoteTable :=
  match getAssoc c t with
  | none => t
  | some l =>
    let l' := (l ++ [note]).filter (fun x => x ≠ note)
    if l' = [] then delAssoc c t else setAssoc c l' t

/-- The dictionary to descend into at a non-terminal segment of
`setState`: an existing sub-dictionary, or a fresh `{}` when the slot holds
a string or nothing (`typeof next === "string" || !next`). -/
def childDict (o : Option SNode) : List (String × SNode) :=
  match o with
  | some (SNode.dict m) => m
  | _ => []

/-- The `while` loop of `setState` on the split path: the last segment is
assigned the scalar unconditionally; other segments replace a scalar or
missing slot by a fresh dictionary and descend. -/
def setPath : List String → String → StateRoot → StateRoot
  | [], _, d => d
  | [p], v, d => setAssoc p (SNode.str v) d
  | p :: q :: rest, v, d =>
    setAssoc p (SNode.dict (setPath (q :: rest) v (childDict (getAssoc p d)))) d

/-- Read the node at a path (for stating properties of `setPath`). -/
def getPath : List String → StateRoot → Option SNode
  | [], _ => none
  | [p], d => getAssoc p d
  | p :: q :: rest, d =>
    match getAssoc p d with
    | some (SNode.dict m) => getPath (q :: rest) m
    | _ => none

/-!
## The line-level operations (regex match + trim + core update)

Each returns `some newStore` when the method returns `true` and `none`
when it returns `false`.
-/

/-- `AttributesProvider.numberAdd`. -/
def numberAdd (l : List Char) (t : AttrTable) : Option AttrTable :=
  match attrRegexMatch l with
  | some (c, a, v) =>
    some (attrAddCore (jsTrim c).asString (jsTrim a).asString (jsNumber v) t)
  | none => none

/-- `AttributesProvider.numberRemove`. -/
def numberRemove (l : List Char) (t : AttrTable) : Option AttrTable :=
  match attrRegexMatch l with
  | some (c, a, v) =>
    some (attrRemoveCore (jsTrim c).asString (jsTrim a).asString (jsNumber v) t)
  | none => none

/-- `NotesProvider.textAdd`. -/
def textAdd (l : List Char) (t : NoteTable) : Option NoteTable :=
  match noteMatcherMatch l with
  | some (c, n) => some (noteAddCore (jsTrim c).asString (jsTrim n).asString t)
  | none => none

/-- `NotesProvider.textRemove`. -/
def textRemove (l : List Char) (t : NoteTable) : Option NoteTable :=
  match noteMatcherMatch l with
  | some (c, n) => some (noteRemoveCore (jsTrim c).asString (jsTrim n).asString t)
  | none => none

/-- `StateProvider.setState`: split the trimmed path on `\s+`, bail out on
an empty segment list (returning `false`), else run the descent loop. -/
def setState (l : List Char) (st : StateRoot) : Option StateRoot :=
  match stateMatcherMatch l with
  | some (p, v) =>
    let segs := (jsSplitWs (jsTrim p)).map List.asString
    if segs = [] then none
    else some (setPath segs (jsTrim v).asString st)
  | none => none

/-!
## The dispatcher and the recompute driver
-/

/-- The three stores cleared and rebuilt by `handleLines`. -/
structure Stores where
  attrs : AttrTable
  notes : NoteTable
  state : StateRoot

/-- The empty stores (`clear()` on all three providers). -/
def emptyStores : Stores := ⟨[], [], []⟩

/-- `match o with some x => f x | none => k`: one arm of the
`if (provider.method(line)) { continue; }` cascade. -/
def tryUpd {α : Type} (o : Option α) (f : α → Stores) (k : Stores) : Stores :=
  match o with
  | some x => f x
  | none => k

/-- The body of the `for` loop of `handleLines` on the line's characters:
skip empty lines (`line === ""`), switch on the first character
(`line[0]`), try the parsers of that sigil in order. -/
def processLine (s : Stores) (l : List Char) : Stores :=
  match l with
  | [] => s
  | c :: _ =>
    if c = '*' then
      tryUpd (numberAdd l s.attrs) (fun t => { s with attrs := t }) s
    else if c = '+' then
      tryUpd (numberAdd l s.attrs) (fun t => { s with attrs := t })
        (tryUpd (textAdd l s.notes) (fun n => { s with notes := n }) s)
    else if c = '-' then
      tryUpd (numberRemove l s.attrs) (fun t => { s with attrs := t })
        (tryUpd (textRemove l s.notes) (fun n => { s with notes := n }) s)
    else if c = '>' then
      tryUpd (setState l s.state) (fun st => { s with state := st }) s
    else s

/-- `handleLines`: clear the three providers, then replay every line.
(The trailing `refresh()` calls only fire the view events and do not touch
the stores.) -/
def handleLines (lines : List String) : Stores :=
  lines.foldl (fun s line => processLine s line.data) emptyStores

/-- The driver state: the module-level `activeLine` plus the stores. -/
structure Driver where
  activeLine : Nat
  stores : Stores

/-- The body of the `onDidChangeTextEditorSelection` handler, for a
document already recognised as markdown: a move to the same line is a
no-op, a move to a different line records it and replays the prefix
`slice(0, line + 1)` of the document's lines.  The boolean reports whether
a recompute pass ran. -/
def onSelectionChange (d : Driver) (docLines : List String) (line : Nat) :
    Driver × Bool :=
  if line = d.activeLine then (d, false)
  else ({ activeLine := line, stores := handleLines (docLines.take (line + 1)) }, true)

/-- Run a list of cursor-move events, counting recompute passes. -/
def runMoves (d : Driver) (doc : List String) : List Nat → Driver × Nat
  | [] => (d, 0)
  | l :: ls =>
    let p := onSelectionChange d doc l
    let r := runMoves p.1 doc ls
    (r.1, (if p.2 then 1 else 0) + r.2)

/-!
## Abstract attribute operations (for the store-level invariant claims)
-/

/-- One attribute operation on a fixed `(entity, attr)` pair. -/
inductive AttrOp where
  | add : Int → AttrOp
  | remove : Int → AttrOp
deriving DecidableEq

/-- The signed delta an operation contributes to the accumulated total. -/
def opDelta : AttrOp → Int
  | .add v => v
  | .remove v => -v

/-- The algebraic sum of the signed deltas of a sequence. -/
def opSum (ops : List AttrOp) : Int := (ops.map opDelta).sum

/-- Whether the last operation of the sequence is a remove. -/
def lastIsRemove (ops : List AttrOp) : Bool :=
  match ops.getLast? with
  | some (.remove _) => true
  | _ => false

/-- Apply a sequence of operations on the pair `(c, a)` to the empty
attribute table. -/
def applyOps (c a : String) (ops : List AttrOp) : AttrTable :=
  ops.foldl
    (fun t op =>
      match op with
      | .add v => attrAddCore c a v t
      | .remove v => attrRemoveCore c a v t)
    []

/-- The four-line end-to-end example document of the spec. -/
def exampleDoc : List String :=
  ["+ [Alice] Found a key", "* [Alice] Courage: 2",
   "> quest south : locked", "- quest south"]

/-!
## Association-list lemmas
-/

theorem getAssoc_setAssoc_self {α : Type} (k : String) (v : α) (l : List (String × α)) :
    getAssoc k (setAssoc k v l) = some v := by
  induction l with
  | nil => simp [getAssoc, setAssoc]
  | cons p rest ih =>
    obtain ⟨k', v'⟩ := p
    by_cases h : k' = k <;> simp [getAssoc, setAssoc, h, ih]

theorem getAssoc_delAssoc_self {α : Type} (k : String) (l : List (String × α)) :
    getAssoc k (delAssoc k l) = none := by
  induction l with
  | nil => simp [getAssoc, delAssoc]
  | cons p rest ih =>
    obtain ⟨k', v'⟩ := p
    by_cases h : k' = k
    · simp [getAssoc, delAssoc, h]
      simpa [delAssoc] using ih
    · simp [getAssoc, delAssoc, h]
      simpa [delAssoc] using ih

theorem setAssoc_of_getAssoc_none {α : Type} (k : String) (v : α)
    {l : List (String × α)} (h : getAssoc k l = none) :
    setAssoc k v l = l ++ [(k, v)] := by
  induction l with
  | nil => simp [setAssoc]
  | cons p rest ih =>
    obtain ⟨k', v'⟩ := p
    by_cases hk : k' = k
    · simp [getAssoc, hk] at h
    · simp [getAssoc, hk] at h
      simp [setAssoc, hk, ih h]

theorem delAssoc_of_getAssoc_none {α : Type} (k : String)
    {l : List (String × α)} (h : getAssoc k l = none) :
    delAssoc k l = l := by
  induction l with
  | nil => simp [delAssoc]
  | cons p rest ih =>
    obtain ⟨k', v'⟩ := p
    by_cases hk : k' = k
    · simp [getAssoc, hk] at h
    · simp [getAssoc, hk] at h
      simp [delAssoc, hk] at ih ⊢
      exact ih h

/-!
## Lemmas about the state-tree descent
-/

/-- Setting a value at a non-empty path always makes the terminal node that
scalar, whatever was there before (destructive overwrite). -/
theorem getPath_setPath (v : String) :
    ∀ (path : List String) (d : StateRoot), path ≠ [] →
      getPath path (setPath path v d) = some (SNode.str v) := by
  intro path
  induction path with
  | nil => intro d h; exact absurd rfl h
  | cons p rest ih =>
    intro d _
    cases rest with
    | nil => simp [setPath, getPath, getAssoc_setAssoc_self]
    | cons q rest' =>
      simp only [setPath, getPath, getAssoc_setAssoc_self]
      exact ih _ (by simp)

/-- `jsSplitWs` never returns the empty list of pieces. -/
theorem splitWsGo_ne_nil : ∀ (l : List Char) (cur : Option (List Char)),
    splitWsGo l cur ≠ [] := by
  intro l
  induction l with
  | nil => intro cur; cases cur <;> simp [splitWsGo]
  | cons c rest ih =>
    intro cur
    cases cur with
    | some cur =>
      by_cases h : isWs c
      · simp [splitWsGo, h]
      · simp only [splitWsGo, h, Bool.false_eq_true, if_false]
        exact ih _
    | none =>
      by_cases h : isWs c
      · simp only [splitWsGo, h, if_true]
        exact ih _
      · simp only [splitWsGo, h, Bool.false_eq_true, if_false]
        exact ih _

/-! Scratch sanity checks (concrete evaluations of the embedding). -/

example : attrRegexMatch "* [Alice] Courage: 2".data =
    some ("Alice".data, "Courage".data, "2".data) := by decide
example : attrRegexMatch "+ [Alice] Found a key".data = none := by decide
example : noteMatcherMatch "+ [Alice] Found a key".data =
    some ("Alice".data, "Found a key".data) := by decide
example : attrRegexMatch "- quest south".data = none := by decide
example : noteMatcherMatch "- quest south".data = none := by decide
example : stateMatcherMatch "> quest south : locked".data =
    some ("quest south".data, "locked".data) := by decide
example : stateMatcherMatch "> : v".data = some ([], "v".data) := by decide
example :
    handleLines ["+ [Alice] Found a key", "* [Alice] Courage: 2",
                 "> quest south : locked", "- quest south"] =
    ⟨[("Alice", [("Courage", 2)])], [("Alice", ["Found a key"])],
     [("quest", SNode.dict [("south", SNode.str "locked")])]⟩ := rfl

/-!
## Claim theorems
-/

/-- **C1 (counterexample).** The claim says that the `- quest south` line
clears the state-tree entry set by `> quest south : locked`, leaving the
State Tree empty after replaying the four-line example up to line 3.  In
the code the `-` case of `handleLines` only tries `numberRemove` and
`textRemove`, both of which require a bracketed entity, so the line is
silently skipped and the State Tree still holds the entry. -/
theorem clearSigil_counterexample :
    (handleLines (exampleDoc.take (3 + 1))).state =
      [("quest", SNode.dict [("south", SNode.str "locked")])]
    ∧ (handleLines (exampleDoc.take (3 + 1))).state ≠ [] :=
  ⟨rfl, fun h =>
    List.noConfusion
      (show ([("quest", SNode.dict [("south", SNode.str "locked")])] : StateRoot) = []
        from h)⟩

/-- **C1 (amended).** There is no state-clear parser: a `-` line with no
bracketed entity matches neither `ATTR_REGEX` nor `NOTE_MATCHER` and is
silently skipped, leaving every store unchanged.  Replaying the four-line
example up to line 3 therefore yields the expected note and attribute
stores, but the State Tree still holds `quest → south → "locked"`. -/
theorem clearSigil_amended :
    attrRegexMatch "- quest south".data = none
    ∧ noteMatcherMatch "- quest south".data = none
    ∧ (∀ s : Stores, processLine s "- quest south".data = s)
    ∧ handleLines (exampleDoc.take (3 + 1)) =
        ⟨[("Alice", [("Courage", 2)])], [("Alice", ["Found a key"])],
         [("quest", SNode.dict [("south", SNode.str "locked")])]⟩ :=
  ⟨rfl, rfl, fun _ => rfl, rfl⟩

/-- **C5 (counterexample).** On the line `+ [Alice] Courage: 2`, which
matches both the note grammar and the attribute grammar, the dispatcher
consumes it as an *attribute* addition: the Note Store stays empty and the
Attribute Store receives the entry, contradicting the claimed
note-parser-first order. -/
theorem notePriority_counterexample :
    (processLine emptyStores "+ [Alice] Courage: 2".data).notes = []
    ∧ (processLine emptyStores "+ [Alice] Courage: 2".data).attrs =
        [("Alice", [("Courage", 2)])]
    ∧ (processLine emptyStores "+ [Alice] Courage: 2".data).attrs ≠ emptyStores.attrs :=
  ⟨rfl, rfl, fun h =>
    List.noConfusion
      (show ([("Alice", [("Courage", 2)])] : AttrTable) = [] from h)⟩

/-- **C5 (amended).** For every `+` line, the *attribute* parser is tried
first: whenever `ATTR_REGEX` matches, the line is consumed as an attribute
addition and the Note Store is unchanged by that line. -/
theorem notePriority_amended (s : Stores) (l : List Char) (ch an v : List Char)
    (hplus : l.head? = some '+')
    (hm : attrRegexMatch l = some (ch, an, v)) :
    (processLine s l).notes = s.notes
    ∧ (processLine s l).attrs =
        attrAddCore (jsTrim ch).asString (jsTrim an).asString (jsNumber v) s.attrs := by
  cases l with
  | nil => simp at hplus
  | cons c0 rest =>
    have hc0 : c0 = '+' := by simpa using hplus
    subst hc0
    simp [processLine, numberAdd, hm, tryUpd]

/-- **C5 (amended), witness.** -/
theorem notePriority_amended_witness :
    (processLine emptyStores "+ [A] B: 3".data).notes = []
    ∧ (processLine emptyStores "+ [A] B: 3".data).attrs =
        attrAddCore "A" "B" 3 [] :=
  notePriority_amended emptyStores "+ [A] B: 3".data
    "A".data "B".data "3".data rfl rfl

/-- **C7 (confirmed).** A non-empty line that none of the three patterns
matches leaves all three stores unchanged (and, the embedding being a
total function, no error is raised): whatever its first character, every
candidate parser returns `false` without mutating its store, and lines
whose first character is not a recognised sigil fall through the switch. -/
theorem unmatchedLine_skipped (s : Stores) (l : List Char)
    (hne : l ≠ [])
    (ha : attrRegexMatch l = none)
    (hn : noteMatcherMatch l = none)
    (hs : stateMatcherMatch l = none) :
    processLine s l = s := by
  cases l with
  | nil => exact absurd rfl hne
  | cons c rest =>
    simp only [processLine]
    split_ifs <;>
      simp [numberAdd, numberRemove, textAdd, textRemove, setState, ha, hn, hs, tryUpd]

/-- **C7 (confirmed), witness.** The prose-like line `- quest south`
(no bracketed entity, no colon) matches no pattern and is skipped on a
non-trivial store. -/
theorem unmatchedLine_skipped_witness :
    processLine ⟨[("E", [("x", 1)])], [("E", ["n"])], [("k", SNode.str "v")]⟩
        "- quest south".data =
      ⟨[("E", [("x", 1)])], [("E", ["n"])], [("k", SNode.str "v")]⟩ :=
  unmatchedLine_skipped _ _ (by decide) rfl rfl rfl

/-- **C4 (confirmed).** `setState`'s descent is a destructive deep upsert:
a non-terminal segment whose slot holds a scalar or nothing is replaced by
a fresh empty mapping and the descent continues inside it; the terminal
segment is assigned the scalar unconditionally (so reading the written
path back always yields exactly that scalar, whatever was there before);
and in particular `set(["a","b"],"1")` then `set(["a"],"x")` leaves `a`
holding the scalar `"x"` with `b` gone. -/
theorem stateSet_destructive_upsert :
    (∀ (d : StateRoot) (p q v : String) (rest : List String),
        (getAssoc p d = none ∨ ∃ sc, getAssoc p d = some (SNode.str sc)) →
        setPath (p :: q :: rest) v d =
          setAssoc p (SNode.dict (setPath (q :: rest) v [])) d)
    ∧ (∀ (path : List String) (v : String) (d : StateRoot), path ≠ [] →
        getPath path (setPath path v d) = some (SNode.str v))
    ∧ setPath ["a"] "x" (setPath ["a", "b"] "1" []) = [("a", SNode.str "x")] := by
  refine ⟨?_, ?_, rfl⟩
  · intro d p q v rest h
    rcases h with h | ⟨sc, h⟩ <;> simp [setPath, childDict, h]
  · intro path v d h
    exact getPath_setPath v path d h

/-- **C4 (confirmed), witness.** A scalar sitting at the non-terminal
segment `a` is replaced by a fresh mapping, and the freshly written path
reads back as the written scalar. -/
theorem stateSet_destructive_upsert_witness :
    setPath ["a", "b"] "x" [("a", SNode.str "old")] =
      [("a", SNode.dict [("b", SNode.str "x")])]
    ∧ getPath ["k"] (setPath ["k"] "w" []) = some (SNode.str "w") :=
  ⟨(stateSet_destructive_upsert.1 [("a", SNode.str "old")] "a" "b" "x" []
      (Or.inr ⟨"old", rfl⟩)).trans rfl,
   stateSet_destructive_upsert.2.1 ["k"] "w" [] (by simp)⟩

/-- **C6 (confirmed).** When a remove brings the `(entity, attribute)`
total to exactly zero, the attribute key is deleted and, should the
entity's map become empty, the entity key is deleted too; moreover a
remove never leaves the touched pair stored with value zero. -/
theorem attrRemove_prunes_zero (t : AttrTable) (c a : String) (v : Int)
    (h : (getAssoc a ((getAssoc c t).getD [])).getD 0 - v = 0) :
    (getAssoc c (attrRemoveCore c a v t)).bind (getAssoc a) = none
    ∧ (∀ m, getAssoc c (attrRemoveCore c a v t) = some m → getAssoc a m = none ∧ m ≠ [])
    ∧ (getAssoc c (attrRemoveCore c a v t)).bind (getAssoc a) ≠ some 0 := by
  unfold attrRemoveCore
  rw [if_pos h]
  by_cases h2 : delAssoc a ((getAssoc c t).getD []) = []
  · rw [if_pos h2]
    refine ⟨?_, ?_, ?_⟩
    · rw [getAssoc_delAssoc_self]; rfl
    · intro m hm; rw [getAssoc_delAssoc_self] at hm; exact Option.noConfusion hm
    · rw [getAssoc_delAssoc_self]; exact fun hc => Option.noConfusion hc
  · rw [if_neg h2]
    refine ⟨?_, ?_, ?_⟩
    · rw [getAssoc_setAssoc_self]
      simpa using getAssoc_delAssoc_self a _
    · intro m hm
      rw [getAssoc_setAssoc_self] at hm
      cases hm
      exact ⟨getAssoc_delAssoc_self a _, h2⟩
    · rw [getAssoc_setAssoc_self]
      simp [getAssoc_delAssoc_self a _]

/-- **C6 (confirmed), witness.** Removing 2 from `A.x = 2` while `A.y = 5`
remains deletes the `x` key but keeps the entity. -/
theorem attrRemove_prunes_zero_witness :
    (getAssoc "A" (attrRemoveCore "A" "x" 2 [("A", [("x", 2), ("y", 5)])])).bind
        (getAssoc "x") = none
    ∧ attrRemoveCore "A" "x" 2 [("A", [("x", 2), ("y", 5)])] = [("A", [("y", 5)])] :=
  ⟨(attrRemove_prunes_zero [("A", [("x", 2), ("y", 5)])] "A" "x" 2 (by decide)).1, rfl⟩

/-- **C10 (confirmed).** Splitting the trimmed path text on whitespace
always yields at least one segment (splitting the empty string yields
`[""]`), so the empty-path early return of `setState` is unreachable and a
matched state line always stores its value; in particular `> : v` stores
`"v"` under the empty-string key at the root. -/
theorem statePath_never_empty :
    (∀ l : List Char, jsSplitWs (jsTrim l) ≠ [])
    ∧ (∀ (l : List Char) (st : StateRoot) (p v : List Char),
        stateMatcherMatch l = some (p, v) →
        setState l st =
          some (setPath ((jsSplitWs (jsTrim p)).map List.asString)
            (jsTrim v).asString st))
    ∧ processLine emptyStores "> : v".data = ⟨[], [], [("", SNode.str "v")]⟩ := by
  refine ⟨fun l => splitWsGo_ne_nil _ _, ?_, rfl⟩
  intro l st p v hm
  have hne : List.map List.asString (jsSplitWs (jsTrim p)) ≠ [] := fun hmap =>
    splitWsGo_ne_nil (jsTrim p) (some []) (List.map_eq_nil_iff.mp hmap)
  unfold setState
  rw [hm]
  show (if List.map List.asString (jsSplitWs (jsTrim p)) = [] then none
        else some (setPath (List.map List.asString (jsSplitWs (jsTrim p)))
          (jsTrim v).asString st)) =
      some (setPath (List.map List.asString (jsSplitWs (jsTrim p)))
        (jsTrim v).asString st)
  exact if_neg hne

/-- **C10 (confirmed), witness.** -/
theorem statePath_never_empty_witness :
    jsSplitWs (jsTrim "".data) ≠ []
    ∧ setState "> a : b".data [] = some [("a", SNode.str "b")] :=
  ⟨statePath_never_empty.1 "".data,
   (statePath_never_empty.2.1 "> a : b".data [] "a".data "b".data rfl).trans rfl⟩

/-- **C3 (confirmed).** On the Note Store: adding `v` at a path with no
prior list and then removing `v` restores the store exactly (no list at
the path, no empty entry left behind); and after adding `v` twice a single
remove deletes *all* occurrences equal to `v` — the surviving list is the
prior list filtered of `v` (entries different from `v` unchanged, deleted
entirely when nothing survives), and `v` never occurs in the result. -/
theorem noteAddThenRemove (t : NoteTable) (c v : String) :
    (getAssoc c t = none →
      noteRemoveCore c v (noteAddCore c v t) = t
      ∧ getAssoc c (noteRemoveCore c v (noteAddCore c v t)) = none)
    ∧ getAssoc c (noteRemoveCore c v (noteAddCore c v (noteAddCore c v t))) =
        (if ((getAssoc c t).getD []).filter (fun x => x ≠ v) = [] then none
         else some (((getAssoc c t).getD []).filter (fun x => x ≠ v)))
    ∧ (∀ lres,
        getAssoc c (noteRemoveCore c v (noteAddCore c v (noteAddCore c v t))) =
          some lres → v ∉ lres) := by
  have hga : ∀ X : NoteTable,
      getAssoc c (noteAddCore c v X) = some ((getAssoc c X).getD [] ++ [v]) :=
    fun X => getAssoc_setAssoc_self c _ X
  have h1 := hga t
  have h2 : getAssoc c (noteAddCore c v (noteAddCore c v t)) =
      some (((getAssoc c t).getD [] ++ [v]) ++ [v]) := by
    rw [hga, h1]
    simp
  have hfil : ((((getAssoc c t).getD [] ++ [v]) ++ [v]) ++ [v]).filter
      (fun x => x ≠ v) = ((getAssoc c t).getD []).filter (fun x => x ≠ v) := by
    simp [List.filter_append]
  have key : noteRemoveCore c v (noteAddCore c v (noteAddCore c v t)) =
      (if ((getAssoc c t).getD []).filter (fun x => x ≠ v) = [] then
        delAssoc c (noteAddCore c v (noteAddCore c v t))
       else setAssoc c (((getAssoc c t).getD []).filter (fun x => x ≠ v))
         (noteAddCore c v (noteAddCore c v t))) := by
    simp only [noteRemoveCore, h2, hfil]
  refine ⟨?_, ?_, ?_⟩
  · intro h
    have hadd : noteAddCore c v t = t ++ [(c, [v])] := by
      simp [noteAddCore, h, setAssoc_of_getAssoc_none c [v] h]
    have hrem : noteRemoveCore c v (noteAddCore c v t) = t := by
      simp only [noteRemoveCore, h1, h, Option.getD_none, List.nil_append]
      have : (([v] : List String) ++ [v]).filter (fun x => x ≠ v) = [] := by simp
      rw [this, if_pos rfl, hadd]
      simp only [delAssoc, List.filter_append]
      rw [show List.filter (fun p => decide (p.1 ≠ c)) [(c, [v])] = [] by simp]
      rw [List.append_nil]
      exact delAssoc_of_getAssoc_none c h
    exact ⟨hrem, by rw [hrem, h]⟩
  · rw [key]
    by_cases hk : ((getAssoc c t).getD []).filter (fun x => x ≠ v) = []
    · rw [if_pos hk, if_pos hk]
      exact getAssoc_delAssoc_self c _
    · rw [if_neg hk, if_neg hk]
      exact getAssoc_setAssoc_self c _ _
  · intro lres hres hv
    rw [key] at hres
    by_cases hk : ((getAssoc c t).getD []).filter (fun x => x ≠ v) = []
    · rw [if_pos hk, getAssoc_delAssoc_self] at hres
      exact Option.noConfusion hres
    · rw [if_neg hk, getAssoc_setAssoc_self] at hres
      cases hres
      simp at hv

/-- **C3 (confirmed), witness.** -/
theorem noteAddThenRemove_witness :
    noteRemoveCore "Alice" "key" (noteAddCore "Alice" "key" []) = []
    ∧ getAssoc "Bob"
        (noteRemoveCore "Bob" "x"
          (noteAddCore "Bob" "x" (noteAddCore "Bob" "x" [("Bob", ["y"])]))) =
        some ["y"] := by
  refine ⟨((noteAddThenRemove [] "Alice" "key").1 rfl).1, ?_⟩
  have h := (noteAddThenRemove [("Bob", ["y"])] "Bob" "x").2.1
  rw [h]
  rfl

/-- **C9 (confirmed).** For a cursor-move notification on a recognised
markdown document: landing on the last processed line is a no-op (stores
untouched, no recompute), landing on a different line runs exactly one
recompute that replays the document lines `0 .. line` from scratch, and
two consecutive moves to the same (new) line run exactly one recompute
pass in total. -/
theorem recompute_on_line_change (d : Driver) (doc : List String) (l : Nat) :
    (l = d.activeLine → onSelectionChange d doc l = (d, false))
    ∧ (l ≠ d.activeLine →
        onSelectionChange d doc l =
          ({ activeLine := l, stores := handleLines (doc.take (l + 1)) }, true)
        ∧ (runMoves d doc [l, l]).2 = 1) := by
  refine ⟨fun h => by simp [onSelectionChange, h],
    fun h => ⟨by simp [onSelectionChange, h], ?_⟩⟩
  simp [runMoves, onSelectionChange, h]

/-- **C9 (confirmed), witness.** From the initial driver state, moving to
line 3 of the example document twice recomputes exactly once. -/
theorem recompute_on_line_change_witness :
    onSelectionChange ⟨0, emptyStores⟩ exampleDoc 3 =
      ({ activeLine := 3, stores := handleLines (exampleDoc.take (3 + 1)) }, true)
    ∧ (runMoves ⟨0, emptyStores⟩ exampleDoc [3, 3]).2 = 1 :=
  ⟨((recompute_on_line_change ⟨0, emptyStores⟩ exampleDoc 3).2 (by decide)).1,
   ((recompute_on_line_change ⟨0, emptyStores⟩ exampleDoc 3).2 (by decide)).2⟩

/-!
## Lemmas for the attribute-operation characterisation
-/

theorem applyOps_concat_add (c a : String) (ops : List AttrOp) (v : Int) :
    applyOps c a (ops ++ [AttrOp.add v]) = attrAddCore c a v (applyOps c a ops) := by
  simp [applyOps, List.foldl_append]

theorem applyOps_concat_remove (c a : String) (ops : List AttrOp) (v : Int) :
    applyOps c a (ops ++ [AttrOp.remove v]) =
      attrRemoveCore c a v (applyOps c a ops) := by
  simp [applyOps, List.foldl_append]

theorem opSum_concat (ops : List AttrOp) (op : AttrOp) :
    opSum (ops ++ [op]) = opSum ops + opDelta op := by
  simp [opSum]

theorem lastIsRemove_concat (ops : List AttrOp) (op : AttrOp) :
    lastIsRemove (ops ++ [op]) = lastIsRemove [op] := by
  simp only [lastIsRemove, List.getLast?_concat]
  rfl

theorem attrAddCore_nil (c a : String) (v : Int) :
    attrAddCore c a v [] = [(c, [(a, v)])] := by
  simp [attrAddCore, getAssoc, setAssoc]

theorem attrAddCore_single (c a : String) (S v : Int) :
    attrAddCore c a v [(c, [(a, S)])] = [(c, [(a, S + v)])] := by
  simp [attrAddCore, getAssoc, setAssoc]

theorem attrRemoveCore_nil (c a : String) (v : Int) :
    attrRemoveCore c a v [] =
      if (0 : Int) - v = 0 then [] else [(c, [(a, 0 - v)])] := by
  unfold attrRemoveCore
  by_cases h : (0 : Int) - v = 0 <;> simp [h, getAssoc, setAssoc, delAssoc]

theorem attrRemoveCore_single (c a : String) (S v : Int) :
    attrRemoveCore c a v [(c, [(a, S)])] =
      if S - v = 0 then [] else [(c, [(a, S - v)])] := by
  unfold attrRemoveCore
  by_cases h : S - v = 0 <;> simp [h, getAssoc, setAssoc, delAssoc]

/-- **C2 (counterexample).** Starting from the empty Attribute Store, the
add sequence `+2, -2` on `(Alice, Courage)` has algebraic sum 0 yet leaves
the key present with stored total 0 (and the entity present with it):
`numberAdd` never prunes a zero total, only `numberRemove` does. -/
theorem attrStore_zero_counterexample :
    opSum [AttrOp.add 2, AttrOp.add (-2)] = 0
    ∧ applyOps "Alice" "Courage" [AttrOp.add 2, AttrOp.add (-2)] =
        [("Alice", [("Courage", 0)])]
    ∧ getAssoc "Courage"
        ((getAssoc "Alice"
          (applyOps "Alice" "Courage" [AttrOp.add 2, AttrOp.add (-2)])).getD []) =
        some 0 :=
  ⟨rfl, rfl, rfl⟩

/-- **C2 (amended).** For any sequence of add/remove operations on one
`(entity, attr)` pair starting from the empty Attribute Store, the table
is completely characterised: it is empty iff the sequence is empty or its
last operation is a remove that brought the algebraic sum of the signed
deltas to zero; otherwise the single entity holds the single attribute
with total exactly that sum (which is 0 when an add landed on zero). -/
theorem attrStore_sum_characterisation (c a : String) (ops : List AttrOp) :
    applyOps c a ops =
      if ops = [] ∨ (lastIsRemove ops = true ∧ opSum ops = 0) then []
      else [(c, [(a, opSum ops)])] := by
  induction ops using List.reverseRecOn with
  | nil => simp [applyOps]
  | append_singleton ops op ih =>
    have hne : (ops ++ [op] : List AttrOp) ≠ [] := by simp
    have hS0 : (ops = [] ∨ (lastIsRemove ops = true ∧ opSum ops = 0)) →
        opSum ops = 0 := by
      rintro (h | h)
      · simp [h, opSum]
      · exact h.2
    rcases op with v | v
    · have hla : lastIsRemove (ops ++ [AttrOp.add v]) = false := by
        rw [lastIsRemove_concat]; rfl
      have hcond : ¬(ops ++ [AttrOp.add v] = []
          ∨ (lastIsRemove (ops ++ [AttrOp.add v]) = true
             ∧ opSum (ops ++ [AttrOp.add v]) = 0)) := by
        simp [hla]
      rw [applyOps_concat_add, ih]
      by_cases hP : ops = [] ∨ (lastIsRemove ops = true ∧ opSum ops = 0)
      · rw [if_pos hP, if_neg hcond, attrAddCore_nil, opSum_concat, hS0 hP]
        simp [opDelta]
      · rw [if_neg hP, if_neg hcond, attrAddCore_single, opSum_concat]
        simp [opDelta]
    · have hlr : lastIsRemove (ops ++ [AttrOp.remove v]) = true := by
        rw [lastIsRemove_concat]; rfl
      rw [applyOps_concat_remove, ih]
      by_cases hP : ops = [] ∨ (lastIsRemove ops = true ∧ opSum ops = 0)
      · have hS := hS0 hP
        rw [if_pos hP, attrRemoveCore_nil]
        by_cases hv : (0 : Int) - v = 0
        · rw [if_pos hv,
            if_pos (Or.inr ⟨hlr, by rw [opSum_concat]; simp [opDelta]; omega⟩)]
        · rw [if_neg hv, if_neg (by simp [hlr, opSum_concat, opDelta]; omega)]
          rw [opSum_concat, hS]
          simp [opDelta, sub_eq_add_neg]
      · rw [if_neg hP, attrRemoveCore_single]
        by_cases hv : opSum ops - v = 0
        · rw [if_pos hv,
            if_pos (Or.inr ⟨hlr, by rw [opSum_concat]; simp [opDelta]; omega⟩)]
        · rw [if_neg hv, if_neg (by simp [hlr, opSum_concat, opDelta]; omega)]
          rw [opSum_concat]
          simp [opDelta, sub_eq_add_neg]

/-!
## Whitespace-trimming lemmas
-/

theorem dropWhileHead_not (p : Char → Bool) (l : List Char) (c : Char)
    (h : (l.dropWhile p).head? = some c) : p c = false := by
  have hx := List.head?_dropWhile_not p l
  rw [h] at hx
  exact hx

theorem getLast?_dropWhile (p : Char → Bool) :
    ∀ y : List Char, y.dropWhile p ≠ [] →
      (y.dropWhile p).getLast? = y.getLast? := by
  intro y
  induction y with
  | nil => simp
  | cons x rest ih =>
    intro h
    rw [List.dropWhile_cons] at h ⊢
    by_cases hx : p x
    · rw [if_pos hx] at h ⊢
      have hr : rest ≠ [] := by
        intro he; rw [he] at h; simp at h
      rw [ih h]
      cases rest with
      | nil => exact absurd rfl hr
      | cons z zs => rw [List.getLast?_cons_cons]
    · rw [if_neg hx]

/-- The first character of a trimmed string is never whitespace. -/
theorem jsTrim_head_not_ws (l : List Char) (c : Char)
    (h : (jsTrim l).head? = some c) : isWs c = false := by
  unfold jsTrim at h
  rw [List.head?_reverse] at h
  have hne : List.dropWhile isWs ((l.dropWhile isWs).reverse) ≠ [] := by
    intro he; rw [he] at h; simp at h
  rw [getLast?_dropWhile isWs _ hne, List.getLast?_reverse] at h
  exact dropWhileHead_not isWs l c h

/-- The last character of a trimmed string is never whitespace. -/
theorem jsTrim_getLast_not_ws (l : List Char) (c : Char)
    (h : (jsTrim l).getLast? = some c) : isWs c = false := by
  unfold jsTrim at h
  rw [List.getLast?_reverse] at h
  exact dropWhileHead_not isWs _ c h

/-- **C8 (counterexample).** The `char` and `attr` groups of `ATTR_REGEX`
are `.*?` and can be empty: the line `* [] : 1` is accepted and
`numberAdd` stores an entry whose entity name and attribute name are both
the empty string, contradicting the claimed non-emptiness. -/
theorem attrNames_counterexample :
    attrRegexMatch "* [] : 1".data = some ([], [], ['1'])
    ∧ processLine emptyStores "* [] : 1".data = ⟨[("", [("", 1)])], [], []⟩
    ∧ getAssoc "" (processLine emptyStores "* [] : 1".data).attrs =
        some [("", 1)] :=
  ⟨rfl, rfl, rfl⟩

/-- **C8 (amended).** For every line accepted by the attribute grammar the
stored entity and attribute names are the `trim`s of the captures — they
carry no leading or trailing whitespace — but they may be empty strings
(the captures are `.*?`). -/
theorem attrNames_trimmed (l : List Char) (t : AttrTable) (ch an v : List Char)
    (h : attrRegexMatch l = some (ch, an, v)) :
    numberAdd l t =
      some (attrAddCore (jsTrim ch).asString (jsTrim an).asString (jsNumber v) t)
    ∧ (∀ c0, (jsTrim ch).head? = some c0 → isWs c0 = false)
    ∧ (∀ c0, (jsTrim ch).getLast? = some c0 → isWs c0 = false)
    ∧ (∀ c0, (jsTrim an).head? = some c0 → isWs c0 = false)
    ∧ (∀ c0, (jsTrim an).getLast? = some c0 → isWs c0 = false) :=
  ⟨by simp [numberAdd, h],
   fun c0 => jsTrim_head_not_ws ch c0,
   fun c0 => jsTrim_getLast_not_ws ch c0,
   fun c0 => jsTrim_head_not_ws an c0,
   fun c0 => jsTrim_getLast_not_ws an c0⟩

/-- **C8 (amended), witness.** On `*  [ Alice ]  Courage : 2` the stored
names are the trimmed `Alice` and `Courage`. -/
theorem attrNames_trimmed_witness :
    numberAdd "*  [ Alice ]  Courage : 2".data [] =
      some [("Alice", [("Courage", 2)])]
    ∧ isWs 'A' = false :=
  ⟨((attrNames_trimmed "*  [ Alice ]  Courage : 2".data []
      " Alice ".data "Courage".data "2".data rfl).1).trans rfl,
   (attrNames_trimmed "*  [ Alice ]  Courage : 2".data []
      " Alice ".data "Courage".data "2".data rfl).2.1 'A' rfl⟩
